import Mathlib

/-
Verification of the RaidShadowLegendsHelper core against its design spec.

The Python source is embedded shallowly:
* `utils/screen.py` `locate_all_on_screen`'s clustering pass over raw
  template matches becomes a fold over an insertion-ordered association
  list keyed by the 30-pixel bucket of each match;
* `bot_manager.py`'s `BotManager` becomes an explicit record of the
  module registry, the cooldown tables and an allocation counter for
  threads and stop events;
* the arena / tag-arena battle loops' candidate selection, used-position
  bookkeeping, escalation ladder and battle-over polling become pure
  functions over an environment record describing what the screen
  queries return;
* `main.py`'s `SequenceController.run` becomes a recursion over the
  module list emitting lifecycle events.
-/

/-! ## Clustering of raw template matches (utils/screen.py, locate_all_on_screen) -/

/-- A raw template match: top-left pixel position and match confidence,
as produced by the template-matching backend before clustering. -/
structure RawMatch where
  x : Nat
  y : Nat
  conf : ℚ
  deriving DecidableEq, Repr

/-- The coarse spatial bucket of a raw match: integer division of each
coordinate by 30 (`cluster_key = (pt[0] // 30, pt[1] // 30)`). -/
def bucketOf (m : RawMatch) : Nat × Nat := (m.x / 30, m.y / 30)

/-- One step of building the `clusters` dict: if the bucket key is absent
the match is inserted at the end (Python dicts preserve insertion order);
if present, the stored match is replaced in place only when the new
confidence is strictly greater. -/
def insertMatch (acc : List ((Nat × Nat) × RawMatch)) (m : RawMatch) :
    List ((Nat × Nat) × RawMatch) :=
  match acc.find? (fun q => q.1 = bucketOf m) with
  | none => acc ++ [(bucketOf m, m)]
  | some q =>
    if q.2.conf < m.conf then
      acc.map (fun r => if r.1 = bucketOf m then (bucketOf m, m) else r)
    else acc

/-- The full `clusters` dict after the `for pt in locs` loop. -/
def clusterMatches (locs : List RawMatch) : List ((Nat × Nat) × RawMatch) :=
  locs.foldl insertMatch []

/-- The clustering and capping tail of `locate_all_on_screen`: convert each
surviving bucket representative to a match center by adding half the
template size, then truncate to the first five entries when more than five
clusters exist (the code's comment promises a confidence sort before the
truncation, but no sort is performed). -/
def locate_all_on_screen (tw th : Nat) (locs : List RawMatch) : List (Nat × Nat) :=
  let results := (clusterMatches locs).map (fun q => (q.2.x + tw / 2, q.2.y + th / 2))
  if 5 < results.length then results.take 5 else results

/-! ## Module supervisor (bot_manager.py, BotManager) -/

/-- Per-module record stored in the `_modules` dict: the current thread
handle and stop event, each absent when the module is not running.
Threads and events are modelled by allocation identifiers. -/
structure ModInfo where
  thread : Option Nat
  stopEvent : Option Nat
  deriving DecidableEq, Repr

/-- The BotManager state relevant to start/stop: the module registry
(insertion-ordered, like a Python dict), the collection of stop events on
which `.set()` has been called, a fresh-identifier counter for newly
created events and threads, and the identifiers of threads launched so
far. -/
structure BMState where
  modules : List (String × ModInfo)
  eventsSet : List Nat
  nextId : Nat
  spawned : List Nat
  deriving DecidableEq, Repr

/-- Dict lookup in the module registry (`self._modules[...]` / `.get`). -/
def lookupMod : List (String × ModInfo) → String → Option ModInfo
  | [], _ => none
  | p :: t, n => if p.1 = n then some p.2 else lookupMod t n

/-- In-place mutation of the record stored under an existing key. -/
def updateMod : List (String × ModInfo) → String → ModInfo → List (String × ModInfo)
  | [], _, _ => []
  | p :: t, n, i => if p.1 = n then (n, i) :: t else p :: updateMod t n i

/-- `Event.is_set()` for the event with identifier `e`. -/
def isSet (st : BMState) (e : Nat) : Bool := st.eventsSet.contains e

/-- `Event.set()` for the event with identifier `e`. -/
def setEvent (st : BMState) (e : Nat) : BMState :=
  { st with eventsSet := e :: st.eventsSet }

/-- The lookup error raised by `self._modules[name]` on a missing key. -/
inductive StartError where
  | keyError
  deriving DecidableEq, Repr

/-- The tail of `start_module` once the module is known not to be running:
create a fresh stop `Event` and a fresh `Thread`, store both in the
module's record, and start the thread. -/
def startFresh (st : BMState) (n : String) : BMState :=
  { modules := updateMod st.modules n ⟨some (st.nextId + 1), some st.nextId⟩,
    eventsSet := st.eventsSet,
    nextId := st.nextId + 2,
    spawned := st.spawned ++ [st.nextId + 1] }

/-- `BotManager.start_module`: `self._modules[name]` raises `KeyError` for
an unregistered name; if the stored thread exists and is alive the call
returns with the state unchanged; otherwise a fresh stop event and thread
are created, stored and started. Thread aliveness is an oracle `alive`
over thread identifiers. -/
def start_module (alive : Nat → Bool) (st : BMState) (n : String) :
    Except StartError BMState :=
  match lookupMod st.modules n with
  | none => .error .keyError
  | some info =>
    match info.thread with
    | some t => if alive t then .ok st else .ok (startFresh st n)
    | none => .ok (startFresh st n)

/-- `BotManager.stop_module`: silently returns for an unknown name;
otherwise sets the stored stop event when present, joins the thread with a
bounded timeout (no state effect in this model), and clears the stored
thread and event so the module can be restarted. -/
def stop_module (st : BMState) (n : String) : BMState :=
  match lookupMod st.modules n with
  | none => st
  | some info =>
    let st1 := match info.stopEvent with
      | some e => setEvent st e
      | none => st
    { st1 with modules := updateMod st1.modules n ⟨none, none⟩ }

/-! ## Cooldown accounting (bot_manager.py, mark_completed / get_cooldown_remaining) -/

/-- Dict lookup in a name-to-rational table (`dict.get`). -/
def lookupQ : List (String × ℚ) → String → Option ℚ
  | [], _ => none
  | p :: t, n => if p.1 = n then some p.2 else lookupQ t n

/-- Python dict assignment `d[name] = v`: replace the existing entry in
place when the key is present, else append a new entry. -/
def insertQ : List (String × ℚ) → String → ℚ → List (String × ℚ)
  | [], n, v => [(n, v)]
  | p :: t, n, v => if p.1 = n then (n, v) :: t else p :: insertQ t n v

/-- The cooldown-relevant part of the BotManager state: the `_cooldowns`
configuration table and the `_last_completed` timestamp table. -/
structure CDState where
  cooldowns : List (String × ℚ)
  lastCompleted : List (String × ℚ)
  deriving DecidableEq, Repr

/-- The `_cooldowns` table hard-coded in `BotManager.__init__`
(15 minutes for arena, 24 hours for tag arena, in seconds). -/
def initCooldowns : List (String × ℚ) := [("arena", 15 * 60), ("tag_arena", 24 * 3600)]

/-- `BotManager.mark_completed`: record the current time as the module's
last completion timestamp. -/
def mark_completed (st : CDState) (n : String) (now : ℚ) : CDState :=
  { st with lastCompleted := insertQ st.lastCompleted n now }

/-- `BotManager.get_cooldown_remaining` at current time `now`: 0 when the
configured duration defaults to 0 or is non-positive, 0 when the module
never completed, else the duration minus the elapsed time clamped at 0. -/
def get_cooldown_remaining (st : CDState) (n : String) (now : ℚ) : ℚ :=
  let d := (lookupQ st.cooldowns n).getD 0
  if d ≤ 0 then 0
  else
    match lookupQ st.lastCompleted n with
    | none => 0
    | some last => max 0 (d - (now - last))

/-! ## Battle loop candidate handling (modules/arena.py, modules/tag_arena.py) -/

/-- An on-screen position. -/
abbrev Pos := Int × Int

/-- The per-axis closeness test used by both battle loops:
`abs(c[0] - u[0]) < 30 and abs(c[1] - u[1]) < 30`. -/
def tooClose (c u : Pos) : Bool :=
  (c.1 - u.1).natAbs < 30 && (c.2 - u.2).natAbs < 30

/-- Candidate selection: the first candidate in returned order that is not
too close to any used position (the `for c in candidates` loop with the
`too_close` test). -/
def selectCandidate (used cands : List Pos) : Option Pos :=
  cands.find? (fun c => ! used.any (fun u => tooClose c u))

/-- `used_battle_positions.append((bx, by))` followed by the capacity trim
`used_battle_positions = used_battle_positions[-3:]` when the length
exceeds 3. -/
def pushUsed (l : List Pos) (p : Pos) : List Pos :=
  let l2 := l ++ [p]
  if 3 < l2.length then l2.drop (l2.length - 3) else l2

/-- The battle-over polling loop (`while not stop_event.is_set():
time.sleep(30); ...`), modelled on a discrete clock. `stopTime` is the
instant from which the cancellation event reads as set; `over` tells
whether the battle-over marker is on screen at a given instant; iteration
`k`'s loop top is at time `30 * k`; `fuel` bounds the recursion. The
result is the instant at which the loop exits, `none` if the fuel ran
out. -/
def battleOverPoll (stopTime : Nat) (over : Nat → Bool) : Nat → Nat → Option Nat
  | 0, _ => none
  | fuel + 1, k =>
    if stopTime ≤ 30 * k then some (30 * k)
    else if over (30 * (k + 1)) then some (30 * (k + 1))
    else battleOverPoll stopTime over fuel (k + 1)

/-! ## Escalation ladder (the no-fresh-candidate fallback in both loops) -/

/-- What the screen, template store and stop event return during one run
of the fallback ladder. -/
structure FallbackEnv where
  closeTplFound : Bool
  popupClosed : Bool
  candsAfterPopup : List Pos
  refreshTplFound : Bool
  refreshLoc : Option Pos
  candsAfterRefresh : List Pos
  candsAfterScroll : List Pos
  stopAtDrag : Nat → Bool
  candsAfterDrag : Nat → List Pos

/-- Outcome of the fallback ladder: the chosen candidate (`none` makes the
battle loop break), the used-position list afterwards, the number of
scroll and drag gestures issued, and whether the refresh control was
clicked. -/
structure FallbackResult where
  chosen : Option Pos
  used : List Pos
  scrolls : Nat
  drags : Nat
  refreshClicked : Bool
  deriving DecidableEq, Repr

/-- The `for di in range(4)` drag loop: each iteration first checks the
stop event, then issues a drag, clears the used positions and re-locates
candidates; a non-empty candidate list selects its head and exits early.
Returns the chosen candidate, the used positions and the number of drags
performed. -/
def dragLoop (env : FallbackEnv) (used : List Pos) : Nat → Nat → Option Pos × List Pos × Nat
  | _, 0 => (none, used, 0)
  | di, fuel + 1 =>
    if env.stopAtDrag di then (none, used, 0)
    else
      match (env.candsAfterDrag di).head? with
      | some c => (some c, [], 1)
      | none =>
        let r := dragLoop env [] (di + 1) fuel
        (r.1, r.2.1, r.2.2 + 1)

/-- The `arena_loop` fallback ladder, entered when no fresh candidate was
selected: overlay dismissal with re-location and deduplicated selection;
refresh-button click (clearing used positions) with head-of-list
selection; one scroll gesture (clearing used positions); then up to four
drag gestures. In `arena_loop` the drag step runs whenever no candidate
has been chosen yet, regardless of whether a refresh control was found. -/
def arenaFallback (env : FallbackEnv) (used : List Pos) : FallbackResult :=
  let chosen0 : Option Pos :=
    if env.closeTplFound && env.popupClosed then
      selectCandidate used env.candsAfterPopup
    else none
  match chosen0 with
  | some c => ⟨some c, used, 0, 0, false⟩
  | none =>
    let refreshHit := env.refreshTplFound && env.refreshLoc.isSome
    let used1 := if refreshHit then ([] : List Pos) else used
    let chosen1 := if refreshHit then env.candsAfterRefresh.head? else none
    match chosen1 with
    | some c => ⟨some c, used1, 0, 0, refreshHit⟩
    | none =>
      match env.candsAfterScroll.head? with
      | some c => ⟨some c, [], 1, 0, refreshHit⟩
      | none =>
        let r := dragLoop env [] 0 4
        ⟨r.1, r.2.1, 1, r.2.2, refreshHit⟩

/-- The `tag_arena_loop` fallback ladder: identical to `arenaFallback`
except that the drag step is guarded by `not refresh_tpl` — it runs only
when no refresh template file was found. -/
def tagArenaFallback (env : FallbackEnv) (used : List Pos) : FallbackResult :=
  let chosen0 : Option Pos :=
    if env.closeTplFound && env.popupClosed then
      selectCandidate used env.candsAfterPopup
    else none
  match chosen0 with
  | some c => ⟨some c, used, 0, 0, false⟩
  | none =>
    let refreshHit := env.refreshTplFound && env.refreshLoc.isSome
    let used1 := if refreshHit then ([] : List Pos) else used
    let chosen1 := if refreshHit then env.candsAfterRefresh.head? else none
    match chosen1 with
    | some c => ⟨some c, used1, 0, 0, refreshHit⟩
    | none =>
      match env.candsAfterScroll.head? with
      | some c => ⟨some c, [], 1, 0, refreshHit⟩
      | none =>
        if env.refreshTplFound then ⟨none, [], 1, 0, refreshHit⟩
        else
          let r := dragLoop env [] 0 4
          ⟨r.1, r.2.1, 1, r.2.2, refreshHit⟩

/-! ## Sequence controller (main.py, SequenceController.run) -/

/-- Lifecycle events reported by `SequenceController.run`. -/
inductive SeqEvent where
  | skipped (n : String) (remaining : ℚ)
  | started (n : String)
  | ended (n : String)
  | seqDone
  deriving DecidableEq, Repr

/-- `SequenceController.run`: for each entry, break out when the
controller's stop flag is set; skip entries whose cooldown remaining is
positive, emitting a skipped event carrying the remaining time and
attempting no execution; otherwise emit a started event, run the module
to completion, stop it, mark it completed at the current time and emit an
ended event. After the loop, a sequence-done event is always emitted.
`stopAt i` is the controller stop flag while entry `i` is processed and
`timeAt i` the wall-clock time then. -/
def seqRun (stopAt : Nat → Bool) (timeAt : Nat → ℚ) :
    List String → Nat → CDState → List SeqEvent × CDState
  | [], _, st => ([SeqEvent.seqDone], st)
  | n :: rest, i, st =>
    if stopAt i then ([SeqEvent.seqDone], st)
    else
      let rem := get_cooldown_remaining st n (timeAt i)
      if 0 < rem then
        let r := seqRun stopAt timeAt rest (i + 1) st
        (SeqEvent.skipped n rem :: r.1, r.2)
      else
        let r := seqRun stopAt timeAt rest (i + 1) (mark_completed st n (timeAt i))
        (SeqEvent.started n :: SeqEvent.ended n :: r.1, r.2)

/-! ## Theorems -/

/-- Claim C1: the two-bucket example from the spec does hold (raw matches
(10,10,0.9), (12,11,0.95), (500,500,0.8) yield exactly the two clusters
(12,11) and (500,500), with zero template size), but the cap is NOT "the 5
strongest clusters": on six raw matches in six distinct buckets where the
strongest (confidence 0.99, at (200,0)) arrives last, the code keeps the
first five buckets in insertion order and drops the strongest match,
contradicting its own comment and the spec. -/
theorem C1_clustering_truncates_without_sorting :
    locate_all_on_screen 0 0
      [⟨10, 10, mkRat 9 10⟩, ⟨12, 11, mkRat 95 100⟩, ⟨500, 500, mkRat 8 10⟩]
      = [(12, 11), (500, 500)]
    ∧ locate_all_on_screen 0 0
      [⟨0, 0, mkRat 85 100⟩, ⟨40, 0, mkRat 85 100⟩, ⟨80, 0, mkRat 85 100⟩,
       ⟨120, 0, mkRat 85 100⟩, ⟨160, 0, mkRat 85 100⟩, ⟨200, 0, mkRat 99 100⟩]
      = [(0, 0), (40, 0), (80, 0), (120, 0), (160, 0)]
    ∧ (200, 0) ∉ locate_all_on_screen 0 0
      [⟨0, 0, mkRat 85 100⟩, ⟨40, 0, mkRat 85 100⟩, ⟨80, 0, mkRat 85 100⟩,
       ⟨120, 0, mkRat 85 100⟩, ⟨160, 0, mkRat 85 100⟩, ⟨200, 0, mkRat 99 100⟩] := by
  refine ⟨by decide, by decide, by decide⟩

/-- Looking a key up after a dict assignment to that key yields the
assigned value. -/
theorem lookupQ_insertQ_self (l : List (String × ℚ)) (n : String) (v : ℚ) :
    lookupQ (insertQ l n v) n = some v := by
  induction l with
  | nil => simp [insertQ, lookupQ]
  | cons p t ih =>
    by_cases h : p.1 = n
    · simp [insertQ, h, lookupQ]
    · simp [insertQ, h, lookupQ, ih]

/-- Updating a registered module's record in place makes the new record
the one found by lookup. -/
theorem lookupMod_updateMod_of_mem (ms : List (String × ModInfo)) (n : String)
    (info i : ModInfo) (h : lookupMod ms n = some info) :
    lookupMod (updateMod ms n i) n = some i := by
  induction ms with
  | nil => simp [lookupMod] at h
  | cons p t ih =>
    by_cases hp : p.1 = n
    · simp [updateMod, hp, lookupMod]
    · simp [lookupMod, hp] at h
      simp [updateMod, hp, lookupMod, ih h]

/-- Claim C4: `get_cooldown_remaining` returns 0 when no positive cooldown
is configured (the dict default is 0) or when the module never completed;
otherwise it returns `max 0 (d - elapsed)`; it is always non-negative;
immediately after `mark_completed` with configured positive duration `d`
it equals `d` (hence lies in `[0, d]`); it is monotonically non-increasing
in the current time; and it is 0 once the current time has advanced past
the completion time plus `d`. -/
theorem C4_cooldown_remaining (st : CDState) (n : String) (d last now now2 : ℚ) :
    ((lookupQ st.cooldowns n).getD 0 ≤ 0 → get_cooldown_remaining st n now = 0)
    ∧ (lookupQ st.lastCompleted n = none → get_cooldown_remaining st n now = 0)
    ∧ ((lookupQ st.cooldowns n).getD 0 = d → 0 < d →
        lookupQ st.lastCompleted n = some last →
        get_cooldown_remaining st n now = max 0 (d - (now - last)))
    ∧ 0 ≤ get_cooldown_remaining st n now
    ∧ ((lookupQ st.cooldowns n).getD 0 = d → 0 < d →
        get_cooldown_remaining (mark_completed st n now) n now = d)
    ∧ (now ≤ now2 → get_cooldown_remaining st n now2 ≤ get_cooldown_remaining st n now)
    ∧ ((lookupQ st.cooldowns n).getD 0 = d →
        lookupQ st.lastCompleted n = some last → last + d ≤ now →
        get_cooldown_remaining st n now = 0) := by
  refine ⟨?_, ?_, ?_, ?_, ?_, ?_, ?_⟩
  · intro h
    simp [get_cooldown_remaining, h]
  · intro h
    simp only [get_cooldown_remaining, h]
    split <;> rfl
  · intro hd hpos hlast
    simp [get_cooldown_remaining, hd, hlast, not_le.mpr hpos]
  · simp only [get_cooldown_remaining]
    split
    · exact le_refl 0
    · split
      · exact le_refl 0
      · exact le_max_left 0 _
  · intro hd hpos
    have hins : lookupQ (mark_completed st n now).lastCompleted n = some now := by
      simp [mark_completed, lookupQ_insertQ_self]
    have hcd : (lookupQ (mark_completed st n now).cooldowns n).getD 0 = d := by
      simpa [mark_completed] using hd
    simp only [get_cooldown_remaining, hcd, hins, not_le.mpr hpos, if_false]
    have : d - (now - now) = d := by ring
    rw [this, max_eq_right (le_of_lt hpos)]
  · intro h12
    simp only [get_cooldown_remaining]
    split
    · exact le_refl 0
    · cases hl : lookupQ st.lastCompleted n with
      | none => exact le_refl 0
      | some lastc =>
        exact max_le_max (le_refl 0) (by linarith)
  · intro hd hlast hle
    simp only [get_cooldown_remaining, hd, hlast]
    by_cases h0 : d ≤ 0
    · simp [h0]
    · simp only [h0, if_false]
      exact max_eq_left (by linarith)

/-- Claim C5: starting a module whose stored thread handle is alive is a
no-op: `start_module` returns the state completely unchanged (same thread
handle, same stop event, no new thread spawned). -/
theorem C5_start_running_noop (alive : Nat → Bool) (st : BMState) (n : String)
    (info : ModInfo) (t : Nat)
    (hreg : lookupMod st.modules n = some info)
    (hth : info.thread = some t) (halive : alive t = true) :
    start_module alive st n = .ok st := by
  simp [start_module, hreg, hth, halive]

/-- Witness for C5 at a concrete running module. -/
theorem C5_start_running_noop_witness :
    start_module (fun _ => true) ⟨[("arena", ⟨some 1, some 0⟩)], [], 2, [1]⟩ "arena"
      = .ok ⟨[("arena", ⟨some 1, some 0⟩)], [], 2, [1]⟩ :=
  C5_start_running_noop (fun _ => true) ⟨[("arena", ⟨some 1, some 0⟩)], [], 2, [1]⟩
    "arena" ⟨some 1, some 0⟩ 1 (by decide) rfl rfl

/-- Claim C6: stopping then restarting a module allocates a fresh stop
event: the restarted module stores a new event identifier different from
the old run's, the new event starts unset, and setting the old event does
not change the new event's state. The hypotheses `hbound`/`hstale` are the
allocator invariant that every identifier handed out so far is below the
counter. -/
theorem C6_restart_fresh_signal (alive : Nat → Bool) (st : BMState) (n : String)
    (info : ModInfo) (e : Nat)
    (hreg : lookupMod st.modules n = some info)
    (he : info.stopEvent = some e)
    (hbound : e < st.nextId)
    (hstale : ∀ x ∈ st.eventsSet, x < st.nextId) :
    ∃ st2, start_module alive (stop_module st n) n = .ok st2
      ∧ lookupMod st2.modules n = some ⟨some (st.nextId + 1), some st.nextId⟩
      ∧ st.nextId ≠ e
      ∧ isSet st2 st.nextId = false
      ∧ isSet (setEvent st2 e) st.nextId = isSet st2 st.nextId := by
  have hmods : (stop_module st n).modules = updateMod st.modules n ⟨none, none⟩ := by
    simp [stop_module, hreg, he, setEvent]
  have hnext : (stop_module st n).nextId = st.nextId := by
    simp [stop_module, hreg, he, setEvent]
  have hev : (stop_module st n).eventsSet = e :: st.eventsSet := by
    simp [stop_module, hreg, he, setEvent]
  have hlook : lookupMod (stop_module st n).modules n = some ⟨none, none⟩ := by
    rw [hmods]
    exact lookupMod_updateMod_of_mem st.modules n info ⟨none, none⟩ hreg
  have hne : st.nextId ≠ e := (ne_of_gt hbound)
  have hnm : st.nextId ∉ st.eventsSet := fun hm => lt_irrefl _ (hstale _ hm)
  refine ⟨startFresh (stop_module st n) n, ?_, ?_, hne, ?_, ?_⟩
  · simp [start_module, hlook]
  · have := lookupMod_updateMod_of_mem (stop_module st n).modules n ⟨none, none⟩
      ⟨some ((stop_module st n).nextId + 1), some (stop_module st n).nextId⟩ hlook
    simpa [startFresh, hnext] using this
  · simp [isSet, startFresh, hev, hnext, hne, hnm]
  · simp [isSet, setEvent, startFresh, hev, hnext, hne]

/-- Witness for C6 at a concrete one-module state. -/
theorem C6_restart_fresh_signal_witness :
    ∃ st2, start_module (fun _ => true)
        (stop_module ⟨[("arena", ⟨some 1, some 0⟩)], [], 2, [1]⟩ "arena") "arena" = .ok st2
      ∧ lookupMod st2.modules "arena" = some ⟨some 3, some 2⟩
      ∧ (2 : Nat) ≠ 0
      ∧ isSet st2 2 = false
      ∧ isSet (setEvent st2 0) 2 = isSet st2 2 :=
  C6_restart_fresh_signal (fun _ => true) ⟨[("arena", ⟨some 1, some 0⟩)], [], 2, [1]⟩
    "arena" ⟨some 1, some 0⟩ 0 (by decide) rfl (by decide) (by simp)

/-- Claim C10: starting an unregistered module name raises an uncaught
`KeyError`, while stopping an unknown name silently returns with the state
unchanged. -/
theorem C10_start_unregistered_raises (alive : Nat → Bool) (st : BMState) (n : String)
    (h : lookupMod st.modules n = none) :
    start_module alive st n = .error .keyError ∧ stop_module st n = st := by
  constructor
  · simp [start_module, h]
  · simp [stop_module, h]

/-- Witness for C10 on an empty registry. -/
theorem C10_start_unregistered_raises_witness :
    start_module (fun _ => true) ⟨[], [], 0, []⟩ "ghost" = .error .keyError
      ∧ stop_module ⟨[], [], 0, []⟩ "ghost" = ⟨[], [], 0, []⟩ :=
  C10_start_unregistered_raises (fun _ => true) ⟨[], [], 0, []⟩ "ghost" rfl

/-- Claim C7: under the loop invariant that `used_battle_positions` held
at most 3 entries, one append-and-trim keeps it at most 3; appending to a
full list drops exactly the oldest entry (FIFO); and the result is always
the suffix of the appended list of length `min (|l| + 1) 3`, i.e. the most
recently appended positions. -/
theorem C7_used_positions_capacity (l : List Pos) (p : Pos) (h : l.length ≤ 3) :
    (pushUsed l p).length ≤ 3
    ∧ (l.length = 3 → pushUsed l p = l.tail ++ [p])
    ∧ List.IsSuffix (pushUsed l p) (l ++ [p])
    ∧ (pushUsed l p).length = min (l.length + 1) 3 := by
  have hla : (l ++ [p]).length = l.length + 1 := by simp
  by_cases h3 : 3 < (l ++ [p]).length
  · have hlen : l.length = 3 := by omega
    refine ⟨?_, fun _ => ?_, ?_, ?_⟩
    · simp only [pushUsed]
      rw [if_pos h3, List.length_drop]
      omega
    · have hd1 : (l ++ [p]).length - 3 = 1 := by omega
      simp only [pushUsed]
      rw [if_pos h3, hd1, List.drop_append_of_le_length (by omega), List.drop_one]
    · simp only [pushUsed]
      rw [if_pos h3]
      exact List.drop_suffix _ _
    · simp only [pushUsed]
      rw [if_pos h3, List.length_drop]
      omega
  · refine ⟨?_, fun hl => ?_, ?_, ?_⟩
    · simp only [pushUsed]
      rw [if_neg h3]
      omega
    · exact absurd (by omega : 3 < (l ++ [p]).length) h3
    · simp only [pushUsed]
      rw [if_neg h3]
    · simp only [pushUsed]
      rw [if_neg h3]
      omega

/-- Witness for C7 at a full used-position list. -/
theorem C7_used_positions_capacity_witness :
    (pushUsed [(1, 1), (2, 2), (3, 3)] (4, 4)).length ≤ 3
    ∧ (([((1 : ℤ), (1 : ℤ)), (2, 2), (3, 3)] : List Pos).length = 3 →
        pushUsed [(1, 1), (2, 2), (3, 3)] (4, 4)
          = ([((1 : ℤ), (1 : ℤ)), (2, 2), (3, 3)] : List Pos).tail ++ [(4, 4)])
    ∧ List.IsSuffix (pushUsed [(1, 1), (2, 2), (3, 3)] (4, 4))
        (([((1 : ℤ), (1 : ℤ)), (2, 2), (3, 3)] : List Pos) ++ [(4, 4)])
    ∧ (pushUsed [(1, 1), (2, 2), (3, 3)] (4, 4)).length
        = min (([((1 : ℤ), (1 : ℤ)), (2, 2), (3, 3)] : List Pos).length + 1) 3 :=
  C7_used_positions_capacity [(1, 1), (2, 2), (3, 3)] (4, 4) (by decide)

/-- A successful `find?` splits its list at the first satisfying element:
everything before the result fails the predicate. -/
theorem find?_first_split {α : Type} (p : α → Bool) :
    ∀ (l : List α) (c : α), l.find? p = some c →
      ∃ pre post, l = pre ++ c :: post ∧ ∀ x ∈ pre, p x = false := by
  intro l
  induction l with
  | nil => intro c hc; simp [List.find?] at hc
  | cons a t ih =>
    intro c hc
    by_cases hp : p a = true
    · rw [List.find?_cons_of_pos _ hp] at hc
      exact ⟨[], t, by simpa using (Option.some.inj hc).symm ▸ rfl, by simp⟩
    · rw [List.find?_cons_of_neg _ (by simpa using hp)] at hc
      obtain ⟨pre, post, heq, hall⟩ := ih c hc
      refine ⟨a :: pre, post, by simp [heq], ?_⟩
      intro x hx
      rcases List.mem_cons.mp hx with rfl | hx'
      · simpa using hp
      · exact hall x hx'

/-- Claim C8: a selected candidate is a member of the candidate list and
is not within the 30-unit per-axis radius of any used position; it is the
FIRST such candidate in returned order — every candidate before it is too
close to some used position; whenever some candidate is fresh, selection
succeeds; on the spec's concrete instance with
`UsedPositionSet = [(100,100)]` and candidates `[(105,102), (300,300)]`
the selection is `(300,300)`; and with the extra fresh candidate
`(400,400)` appended after `(300,300)` the selection is still `(300,300)`
(earliest fresh, not just any fresh), even though `(400,400)` is itself
fresh. -/
theorem C8_candidate_selection :
    (∀ used cands c, selectCandidate used cands = some c →
      c ∈ cands ∧ ∀ u ∈ used, tooClose c u = false)
    ∧ (∀ used cands c, selectCandidate used cands = some c →
      ∃ pre post, cands = pre ++ c :: post
        ∧ ∀ c' ∈ pre, ∃ u ∈ used, tooClose c' u = true)
    ∧ (∀ used cands, (∃ c ∈ cands, ∀ u ∈ used, tooClose c u = false) →
      (selectCandidate used cands).isSome)
    ∧ selectCandidate [(100, 100)] [(105, 102), (300, 300)] = some (300, 300)
    ∧ selectCandidate [(100, 100)] [(105, 102), (300, 300), (400, 400)]
        = some (300, 300)
    ∧ (∀ u ∈ ([(100, 100)] : List Pos), tooClose (400, 400) u = false) := by
  refine ⟨?_, ?_, ?_, by decide, by decide, by decide⟩
  · intro used cands c hc
    refine ⟨List.mem_of_find?_eq_some hc, ?_⟩
    have hp := List.find?_some hc
    simp only [Bool.not_eq_true', List.any_eq_false] at hp
    exact fun u hu => by simpa using hp u hu
  · intro used cands c hc
    obtain ⟨pre, post, heq, hall⟩ := find?_first_split _ cands c hc
    refine ⟨pre, post, heq, ?_⟩
    intro c' hc'
    have hfail := hall c' hc'
    simp only [Bool.not_eq_false'] at hfail
    rw [List.any_eq_true] at hfail
    obtain ⟨u, hu, ht⟩ := hfail
    exact ⟨u, hu, ht⟩
  · intro used cands ⟨c, hcm, hcf⟩
    simp only [selectCandidate, List.find?_isSome]
    refine ⟨c, hcm, ?_⟩
    simp only [Bool.not_eq_true', List.any_eq_false]
    intro u hu
    simpa using hcf u hu

/-- Witness for C8: the facts claim C8 yields at the two-fresh-candidate
instance, where the first-in-order fresh candidate `(300,300)` is chosen
and every earlier candidate is too close to a used position. -/
theorem C8_candidate_selection_witness :
    ((300, 300) ∈ ([(105, 102), (300, 300), (400, 400)] : List Pos)
      ∧ ∀ u ∈ ([(100, 100)] : List Pos), tooClose (300, 300) u = false)
    ∧ (∃ pre post,
        ([(105, 102), (300, 300), (400, 400)] : List Pos) = pre ++ (300, 300) :: post
        ∧ ∀ c' ∈ pre, ∃ u ∈ ([(100, 100)] : List Pos), tooClose c' u = true)
    ∧ (selectCandidate [(100, 100)] [(105, 102), (300, 300), (400, 400)]).isSome :=
  ⟨C8_candidate_selection.1 [(100, 100)] [(105, 102), (300, 300), (400, 400)]
      (300, 300) (by decide),
   C8_candidate_selection.2.1 [(100, 100)] [(105, 102), (300, 300), (400, 400)]
      (300, 300) (by decide),
   C8_candidate_selection.2.2.1 [(100, 100)] [(105, 102), (300, 300), (400, 400)]
      ⟨(300, 300), by decide, by decide⟩⟩

/-- The battle-over polling loop always exits at the first loop-top check
at or after the cancellation instant, hence strictly less than one poll
interval (30 units) after it, given enough fuel. -/
theorem battleOverPoll_exit_bound (stopTime : Nat) (over : Nat → Bool) :
    ∀ fuel k, stopTime ≤ 30 * (k + fuel) → 30 * k < stopTime + 30 →
      ∃ e, battleOverPoll stopTime over (fuel + 1) k = some e ∧ e < stopTime + 30 := by
  intro fuel
  induction fuel with
  | zero =>
    intro k h1 h2
    refine ⟨30 * k, ?_, h2⟩
    simp only [battleOverPoll]
    rw [if_pos (by omega : stopTime ≤ 30 * k)]
  | succ f ih =>
    intro k h1 h2
    by_cases hs : stopTime ≤ 30 * k
    · refine ⟨30 * k, ?_, h2⟩
      simp only [battleOverPoll]
      rw [if_pos hs]
    · by_cases ho : over (30 * (k + 1)) = true
      · refine ⟨30 * (k + 1), ?_, by omega⟩
        simp only [battleOverPoll]
        rw [if_neg hs, if_pos ho]
      · obtain ⟨e, he, hlt⟩ := ih (k + 1) (by omega) (by omega)
        refine ⟨e, ?_, hlt⟩
        simp only [battleOverPoll]
        rw [if_neg hs, if_neg ho]
        exact he

/-- Claim C3: if the cancellation signal is set at instant `stopTime`
during the 30-unit battle-over poll, the loop exits strictly before
`stopTime + 30` — within one poll interval — because the signal is checked
at the top of every poll cycle. -/
theorem C3_cancellation_exit_within_interval (stopTime : Nat) (over : Nat → Bool) :
    ∃ e, battleOverPoll stopTime over (stopTime + 1) 0 = some e ∧ e < stopTime + 30 :=
  battleOverPoll_exit_bound stopTime over stopTime 0 (by omega) (by omega)

/-- When every post-drag relocation returns no candidates, the drag loop
chooses nothing and performs at most `fuel` drags. -/
theorem dragLoop_empty_bound (env : FallbackEnv)
    (hd : ∀ i, env.candsAfterDrag i = []) :
    ∀ fuel used di, (dragLoop env used di fuel).1 = none
      ∧ (dragLoop env used di fuel).2.2 ≤ fuel := by
  intro fuel
  induction fuel with
  | zero => intro used di; simp [dragLoop]
  | succ f ih =>
    intro used di
    by_cases hs : env.stopAtDrag di = true
    · simp [dragLoop, hs]
    · have h1 := (ih [] (di + 1)).1
      have h2 := (ih [] (di + 1)).2
      simp only [dragLoop, Bool.not_eq_true] at hs ⊢
      rw [if_neg (by simp [hs]), hd di]
      simp only [List.head?_nil]
      exact ⟨h1, by omega⟩

/-- Counterexample to claim C2 as stated: in `arena_loop`, with the
refresh control both present and locatable (and clicked) but every
candidate relocation empty, the ladder still performs all four drag
gestures — so drags are not attempted "only if the previous ladder steps
found no refresh control". -/
theorem C2_drags_despite_refresh_counterexample :
    (arenaFallback
      ⟨false, false, [], true, some (1, 1), [], [], fun _ => false, fun _ => []⟩
      []).drags = 4
    ∧ (arenaFallback
      ⟨false, false, [], true, some (1, 1), [], [], fun _ => false, fun _ => []⟩
      []).refreshClicked = true := by
  exact ⟨rfl, rfl⟩

/-- Claim C2 (amended): drags are attempted only when the earlier ladder
steps chose no candidate — in `arena_loop` even when a refresh control was
found and clicked, while `tag_arena_loop` additionally requires that no
refresh template was found. When no refresh control is locatable and every
relocation returns no candidates, both loops perform exactly one scroll
gesture and at most four drag gestures, and then end the battle loop
(no candidate chosen). -/
theorem C2_escalation_ladder_amended (env : FallbackEnv) (used : List Pos)
    (hr : env.refreshLoc = none)
    (hp : env.candsAfterPopup = [])
    (hsc : env.candsAfterScroll = [])
    (hd : ∀ i, env.candsAfterDrag i = []) :
    (arenaFallback env used).chosen = none
    ∧ (arenaFallback env used).scrolls = 1
    ∧ (arenaFallback env used).drags ≤ 4
    ∧ (tagArenaFallback env used).chosen = none
    ∧ (tagArenaFallback env used).scrolls = 1
    ∧ (tagArenaFallback env used).drags ≤ 4
    ∧ (env.refreshTplFound = true → (tagArenaFallback env used).drags = 0) := by
  have hsel : selectCandidate used env.candsAfterPopup = none := by
    simp [selectCandidate, hp]
  have hdl := dragLoop_empty_bound env hd 4 [] 0
  refine ⟨?_, ?_, ?_, ?_, ?_, ?_, ?_⟩
  · simp [arenaFallback, hsel, hr, hsc, hdl.1]
  · simp [arenaFallback, hsel, hr, hsc]
  · simp only [arenaFallback, hsel, hr, hsc]
    simp only [Option.isSome_none, Bool.and_false, ite_self, Bool.false_eq_true,
      if_false, List.head?_nil]
    exact hdl.2
  · cases hrt : env.refreshTplFound with
    | false => simp [tagArenaFallback, hsel, hr, hsc, hrt, hdl.1]
    | true => simp [tagArenaFallback, hsel, hr, hsc, hrt]
  · cases hrt : env.refreshTplFound with
    | false => simp [tagArenaFallback, hsel, hr, hsc, hrt]
    | true => simp [tagArenaFallback, hsel, hr, hsc, hrt]
  · cases hrt : env.refreshTplFound with
    | false =>
      simp only [tagArenaFallback, hsel, hr, hsc, hrt]
      simp only [Option.isSome_none, Bool.and_false, ite_self, Bool.false_eq_true,
        if_false, List.head?_nil]
      exact hdl.2
    | true => simp [tagArenaFallback, hsel, hr, hsc, hrt]
  · intro hrt
    simp [tagArenaFallback, hsel, hr, hsc, hrt]

/-- Witness for the amended C2 at a concrete environment with no refresh
control and no candidates anywhere. -/
theorem C2_escalation_ladder_amended_witness :
    (arenaFallback ⟨true, true, [], false, none, [], [], fun _ => false, fun _ => []⟩
      []).chosen = none
    ∧ (arenaFallback ⟨true, true, [], false, none, [], [], fun _ => false, fun _ => []⟩
      []).scrolls = 1
    ∧ (arenaFallback ⟨true, true, [], false, none, [], [], fun _ => false, fun _ => []⟩
      []).drags ≤ 4
    ∧ (tagArenaFallback ⟨true, true, [], false, none, [], [], fun _ => false, fun _ => []⟩
      []).chosen = none
    ∧ (tagArenaFallback ⟨true, true, [], false, none, [], [], fun _ => false, fun _ => []⟩
      []).scrolls = 1
    ∧ (tagArenaFallback ⟨true, true, [], false, none, [], [], fun _ => false, fun _ => []⟩
      []).drags ≤ 4
    ∧ ((⟨true, true, [], false, none, [], [], fun _ => false, fun _ => []⟩ :
        FallbackEnv).refreshTplFound = true →
        (tagArenaFallback ⟨true, true, [], false, none, [], [], fun _ => false,
          fun _ => []⟩ []).drags = 0) :=
  C2_escalation_ladder_amended
    ⟨true, true, [], false, none, [], [], fun _ => false, fun _ => []⟩ []
    rfl rfl rfl (fun _ => rfl)

/-- Every event list produced by the sequence controller ends with the
sequence-done event. -/
theorem seqRun_ends_seqDone (stopAt : Nat → Bool) (timeAt : Nat → ℚ) :
    ∀ (mods : List String) (i : Nat) (st : CDState),
      ∃ l, (seqRun stopAt timeAt mods i st).1 = l ++ [SeqEvent.seqDone] := by
  intro mods
  induction mods with
  | nil => intro i st; exact ⟨[], rfl⟩
  | cons n rest ih =>
    intro i st
    by_cases hs : stopAt i = true
    · exact ⟨[], by simp [seqRun, hs]⟩
    · by_cases hrem : 0 < get_cooldown_remaining st n (timeAt i)
      · obtain ⟨l, hl⟩ := ih (i + 1) st
        refine ⟨SeqEvent.skipped n (get_cooldown_remaining st n (timeAt i)) :: l, ?_⟩
        simp [seqRun, hs, hrem, hl]
      · obtain ⟨l, hl⟩ := ih (i + 1) (mark_completed st n (timeAt i))
        refine ⟨SeqEvent.started n :: SeqEvent.ended n :: l, ?_⟩
        simp [seqRun, hs, hrem, hl]

/-- Claim C9: an entry with positive cooldown remaining is skipped with an
event carrying the remaining time and no execution or completion marking;
an entry with no remaining cooldown runs (started/ended events, completion
marked); every produced event list ends with the sequence-done event; and
on the spec's concrete scenario — modules A (cooldown 0) and B (cooldown
100, completed 10 units ago) — only A runs, B is skipped with remaining
90, and the sequence-done event is still emitted. -/
theorem C9_sequence_controller (stopAt : Nat → Bool) (timeAt : Nat → ℚ)
    (n : String) (rest : List String) (i : Nat) (st : CDState)
    (hstop : stopAt i = false) :
    (0 < get_cooldown_remaining st n (timeAt i) →
      seqRun stopAt timeAt (n :: rest) i st
        = (SeqEvent.skipped n (get_cooldown_remaining st n (timeAt i))
            :: (seqRun stopAt timeAt rest (i + 1) st).1,
          (seqRun stopAt timeAt rest (i + 1) st).2))
    ∧ (get_cooldown_remaining st n (timeAt i) ≤ 0 →
      seqRun stopAt timeAt (n :: rest) i st
        = (SeqEvent.started n :: SeqEvent.ended n
            :: (seqRun stopAt timeAt rest (i + 1) (mark_completed st n (timeAt i))).1,
          (seqRun stopAt timeAt rest (i + 1) (mark_completed st n (timeAt i))).2))
    ∧ (∀ (mods : List String) (j : Nat) (st' : CDState),
        ∃ l, (seqRun stopAt timeAt mods j st').1 = l ++ [SeqEvent.seqDone])
    ∧ seqRun (fun _ => false) (fun _ => 10) ["A", "B"] 0
        ⟨[("A", 0), ("B", 100)], [("B", 0)]⟩
      = ([SeqEvent.started "A", SeqEvent.ended "A",
          SeqEvent.skipped "B" 90, SeqEvent.seqDone],
        ⟨[("A", 0), ("B", 100)], [("B", 0), ("A", 10)]⟩) := by
  refine ⟨?_, ?_, seqRun_ends_seqDone stopAt timeAt, ?_⟩
  · intro hrem
    simp [seqRun, hstop, hrem]
  · intro hrem
    simp [seqRun, hstop, not_lt.mpr hrem]
  · have hBA : ("B" : String) ≠ "A" := by decide
    have hAB : ("A" : String) ≠ "B" := by decide
    have hA : get_cooldown_remaining ⟨[("A", 0), ("B", 100)], [("B", 0)]⟩ "A" 10 = 0 := by
      norm_num [get_cooldown_remaining, lookupQ, hBA]
    have hmk : mark_completed ⟨[("A", 0), ("B", 100)], [("B", 0)]⟩ "A" 10
        = ⟨[("A", 0), ("B", 100)], [("B", 0), ("A", 10)]⟩ := by
      norm_num [mark_completed, insertQ, hBA]
    have hB : get_cooldown_remaining ⟨[("A", 0), ("B", 100)], [("B", 0), ("A", 10)]⟩
        "B" 10 = 90 := by
      norm_num [get_cooldown_remaining, lookupQ, hAB, hBA]
    simp only [seqRun, hA, hmk, hB]
    norm_num

/-- Witness for C9: the skip branch applied at the concrete scenario's
entry B (remaining 90 at time 10). -/
theorem C9_sequence_controller_witness :
    seqRun (fun _ => false) (fun _ => 10) ["B"] 1 ⟨[("A", 0), ("B", 100)], [("B", 0)]⟩
      = (SeqEvent.skipped "B"
          (get_cooldown_remaining ⟨[("A", 0), ("B", 100)], [("B", 0)]⟩ "B" 10)
          :: (seqRun (fun _ => false) (fun _ => 10) [] 2
              ⟨[("A", 0), ("B", 100)], [("B", 0)]⟩).1,
        (seqRun (fun _ => false) (fun _ => 10) [] 2
          ⟨[("A", 0), ("B", 100)], [("B", 0)]⟩).2) :=
  (C9_sequence_controller (fun _ => false) (fun _ => 10) "B" [] 1
    ⟨[("A", 0), ("B", 100)], [("B", 0)]⟩ rfl).1
    (by norm_num [get_cooldown_remaining, lookupQ, (by decide : ("A" : String) ≠ "B"),
      (by decide : ("B" : String) ≠ "A")])

/-- Witness for C4 on concrete cooldown states (configured duration 900,
completion at time 100, queried at times 200, 1100 and 1300). -/
theorem C4_cooldown_remaining_witness :
    get_cooldown_remaining ⟨[], []⟩ "x" 5 = 0
    ∧ get_cooldown_remaining ⟨[("arena", 900)], []⟩ "arena" 5 = 0
    ∧ get_cooldown_remaining ⟨[("arena", 900)], [("arena", 100)]⟩ "arena" 200
        = max 0 (900 - (200 - 100))
    ∧ 0 ≤ get_cooldown_remaining ⟨[("arena", 900)], [("arena", 100)]⟩ "arena" 200
    ∧ get_cooldown_remaining
        (mark_completed ⟨[("arena", 900)], [("arena", 100)]⟩ "arena" 200) "arena" 200 = 900
    ∧ get_cooldown_remaining ⟨[("arena", 900)], [("arena", 100)]⟩ "arena" 1300
        ≤ get_cooldown_remaining ⟨[("arena", 900)], [("arena", 100)]⟩ "arena" 200
    ∧ get_cooldown_remaining ⟨[("arena", 900)], [("arena", 100)]⟩ "arena" 1100 = 0 := by
  obtain ⟨-, -, h3, h4, h5, h6, -⟩ :=
    C4_cooldown_remaining ⟨[("arena", 900)], [("arena", 100)]⟩ "arena" 900 100 200 1300
  obtain ⟨g1, -, -, -, -, -, -⟩ := C4_cooldown_remaining ⟨[], []⟩ "x" 0 0 5 0
  obtain ⟨-, g2, -, -, -, -, -⟩ :=
    C4_cooldown_remaining ⟨[("arena", 900)], []⟩ "arena" 0 0 5 0
  obtain ⟨-, -, -, -, -, -, k7⟩ :=
    C4_cooldown_remaining ⟨[("arena", 900)], [("arena", 100)]⟩ "arena" 900 100 1100 0
  exact ⟨g1 (by decide), g2 rfl, h3 (by decide) (by decide) (by decide), h4,
    h5 (by decide) (by decide), h6 (by decide), k7 (by decide) (by decide) (by norm_num)⟩
